import Mathlib

/-!
Verification of the accept-time connection router specified in spec.md
(the `AcceptRoutingHandler` of the wangle repository).  The repository
snapshot ships only the test file `wangle/bootstrap/AcceptRoutingHandlerTest.cpp`;
the router implementation itself (`AcceptRoutingHandler`, the routing
pipeline registry and the `RoutingDataHandler` contract) is not present,
so the router core below is modelled from the specification (§3–§7 of
spec.md), faithful to its words, and the claims are settled against that
model.
-/

namespace Wangle

/-- Modelled from the spec: a `ConnectionId` is an opaque unique-per-connection
identifier (§3); the missing `AcceptRoutingHandler` keys its registry by it. -/
abbrev ConnId := Nat

/-- Modelled from the spec: raw transport bytes, as an ordered sequence (§3
RoutingBuffer operates on these). -/
abbrev Bytes := List Nat

/-- Modelled from the spec: `RoutingData` is the opaque classification result
produced by a Routing Data Parser (§3); generic, here represented opaquely. -/
abbrev RoutingData := Nat

/-- Modelled from the spec: result of the missing parser contract's
`parse(buffer)` call — `NeedMoreData` or `Classified(result, leftoverBytes)`
(§4.1). -/
inductive ParseResult where
  | needMoreData : ParseResult
  | classified (result : RoutingData) (leftover : Bytes) : ParseResult
deriving DecidableEq

/-- Modelled from the spec: a Routing Data Parser's `parse` operation, a pure
function of the full buffered-so-far content (§4.1). -/
abbrev ParseFn := Bytes → ParseResult

/-- Modelled from the spec: the per-connection routing states
`INIT → ROUTING → {ROUTED | FAILED}` (§4.2); `INIT` is implicit (no registry
entry), `ROUTED` and `FAILED` are terminal. -/
inductive Phase where
  | INIT : Phase
  | ROUTING : Phase
  | ROUTED : Phase
  | FAILED : Phase
deriving DecidableEq

/-- Modelled from the spec: the per-connection routing state recorded in a
`RoutingEntry` — the state-machine phase and the `RoutingBuffer` of bytes
accumulated while routing is undecided (§3). -/
structure ConnState where
  phase : Phase
  buffer : Bytes
deriving DecidableEq

/-- Modelled from the spec: the implicit `INIT` state — no registry entry yet,
nothing buffered (§4.2). -/
def initConn : ConnState := ConnState.mk Phase.INIT []

/-- Modelled from the spec: the Connection Registry, a map
`ConnectionId → RoutingEntry` (§4.3), embedded as an association list. -/
structure RouterState where
  conns : List (ConnId × ConnState)
deriving DecidableEq

/-- Modelled from the spec: the initial router — an empty Connection Registry
owned by the Router (§4.3, §9). -/
def initRouter : RouterState := RouterState.mk []

/-- Modelled from the spec: the accept-level events delivered to the Router
(§6), plus the Router-level error handler invocation (`onError`, transition
5/7) and the classification-success callback (`onRoutingData`, exercised
directly by the tests). -/
inductive Event where
  | transportActive (id : ConnId) : Event
  | read (id : ConnId) (bs : Bytes) : Event
  | readEOF (id : ConnId) : Event
  | readError (id : ConnId) : Event
  | routerError (id : ConnId) : Event
  | routingData (id : ConnId) (result : RoutingData) : Event
deriving DecidableEq

/-- Modelled from the spec: the observable side effects of the missing router
core — parser-factory/parser calls (§4.1, §6), downstream chain construction,
activation and delivery (§4.4, §6), the registry removal side effect (§4.3),
the completion/error hooks (§6), and the fatal DuplicateActivation report
(§7). -/
inductive Effect where
  | invokeParserFactory (id : ConnId) : Effect
  | parserActivated (id : ConnId) : Effect
  | parserOnReadError (id : ConnId) : Effect
  | buildDownstream (id : ConnId) (result : RoutingData) : Effect
  | activateDownstream (id : ConnId) : Effect
  | downstreamRead (id : ConnId) (bs : Bytes) : Effect
  | downstreamEOF (id : ConnId) : Effect
  | downstreamError (id : ConnId) : Effect
  | removeEntry (id : ConnId) : Effect
  | hookRoutingComplete (id : ConnId) (result : RoutingData) : Effect
  | hookRoutingError (id : ConnId) : Effect
  | fatalError (id : ConnId) : Effect
deriving DecidableEq

/-- The connection an event belongs to. -/
def eventId : Event → ConnId
  | Event.transportActive id => id
  | Event.read id _ => id
  | Event.readEOF id => id
  | Event.readError id => id
  | Event.routerError id => id
  | Event.routingData id _ => id

/-- The connection an effect belongs to. -/
def effectId : Effect → ConnId
  | Effect.invokeParserFactory id => id
  | Effect.parserActivated id => id
  | Effect.parserOnReadError id => id
  | Effect.buildDownstream id _ => id
  | Effect.activateDownstream id => id
  | Effect.downstreamRead id _ => id
  | Effect.downstreamEOF id => id
  | Effect.downstreamError id => id
  | Effect.removeEntry id => id
  | Effect.hookRoutingComplete id _ => id
  | Effect.hookRoutingError id => id
  | Effect.fatalError id => id

/-- Update (or insert) the entry for a connection id in the registry list. -/
def updateConn (id : ConnId) (cs : ConnState) :
    List (ConnId × ConnState) → List (ConnId × ConnState)
  | [] => [(id, cs)]
  | (k, v) :: rest =>
      if k = id then (k, cs) :: rest else (k, v) :: updateConn id cs rest

/-- The per-connection routing state currently held by the router; a
connection with no registry entry is in the implicit `INIT` state. -/
def getConn (s : RouterState) (id : ConnId) : ConnState :=
  (List.lookup id s.conns).getD initConn

/-- Modelled from the spec: `routingEntryCount()` — the number of connections
currently mid-routing, i.e. the registry entries in state `ROUTING` (§6,
`getRoutingPipelineCount` in the test). -/
def routingEntryCount (s : RouterState) : Nat :=
  (s.conns.filter (fun p => decide (p.2.phase = Phase.ROUTING))).length

/-- Modelled from the spec: the handoff effect sequence of transition 2 on
`Classified(result, leftover)` (§4.2): build the downstream chain, fire an
activation event into it, then a single read event carrying `leftover` if it
is non-empty, then remove the RoutingEntry; the `onRoutingComplete` hook
fires once on this terminal transition (§6). -/
def handoffEffects (id : ConnId) (r : RoutingData) (leftover : Bytes) :
    List Effect :=
  Effect.buildDownstream id r :: Effect.activateDownstream id ::
    ((if leftover = [] then [] else [Effect.downstreamRead id leftover]) ++
      [Effect.removeEntry id, Effect.hookRoutingComplete id r])

/-- Modelled from the spec: the Accept Routing Router state machine (§4.2),
one synchronous transition per delivered event, returning the new router
state and the side effects performed within that same turn.  Transition 1
creates the entry (duplicate activation is a fatal report, §7); transition 2
drives `parse` and performs the handoff on `Classified`; transition 3
forwards reads after `ROUTED` straight to the downstream chain; transition 4
forwards EOF to the current owner with idempotent removal; transition 5
forwards a read-error to the parser then runs the error handler; transitions
6/7 make every event for an absent entry a safe no-op; the tie-break rule
delivers an error arriving after handoff to the downstream chain. -/
def step (parse : ParseFn) (s : RouterState) : Event → RouterState × List Effect
  | Event.transportActive id =>
      let c := getConn s id
      if c.phase = Phase.INIT then
        (RouterState.mk (updateConn id (ConnState.mk Phase.ROUTING []) s.conns),
          [Effect.invokeParserFactory id, Effect.parserActivated id])
      else
        (s, [Effect.fatalError id])
  | Event.read id bs =>
      let c := getConn s id
      if c.phase = Phase.ROUTING then
        match parse (c.buffer ++ bs) with
        | ParseResult.needMoreData =>
            (RouterState.mk
              (updateConn id (ConnState.mk Phase.ROUTING (c.buffer ++ bs)) s.conns),
              [])
        | ParseResult.classified r leftover =>
            (RouterState.mk (updateConn id (ConnState.mk Phase.ROUTED []) s.conns),
              handoffEffects id r leftover)
      else if c.phase = Phase.ROUTED then
        (s, [Effect.downstreamRead id bs])
      else
        (s, [])
  | Event.readEOF id =>
      let c := getConn s id
      if c.phase = Phase.ROUTING then
        (RouterState.mk (updateConn id (ConnState.mk Phase.FAILED []) s.conns),
          [Effect.removeEntry id])
      else if c.phase = Phase.ROUTED then
        (s, [Effect.downstreamEOF id])
      else
        (s, [])
  | Event.readError id =>
      let c := getConn s id
      if c.phase = Phase.ROUTING then
        (RouterState.mk (updateConn id (ConnState.mk Phase.FAILED []) s.conns),
          [Effect.parserOnReadError id, Effect.removeEntry id,
            Effect.hookRoutingError id])
      else if c.phase = Phase.ROUTED then
        (s, [Effect.downstreamError id])
      else
        (s, [])
  | Event.routerError id =>
      let c := getConn s id
      if c.phase = Phase.ROUTING then
        (RouterState.mk (updateConn id (ConnState.mk Phase.FAILED []) s.conns),
          [Effect.removeEntry id, Effect.hookRoutingError id])
      else
        (s, [])
  | Event.routingData id r =>
      let c := getConn s id
      if c.phase = Phase.ROUTING then
        (RouterState.mk (updateConn id (ConnState.mk Phase.ROUTED []) s.conns),
          handoffEffects id r c.buffer)
      else
        (s, [])

/-- Run the router over a list of events from a given state, accumulating the
performed effects in order. -/
def runFrom (parse : ParseFn) (s : RouterState) :
    List Event → RouterState × List Effect
  | [] => (s, [])
  | e :: es =>
      ((runFrom parse (step parse s e).1 es).1,
        (step parse s e).2 ++ (runFrom parse (step parse s e).1 es).2)

/-- Run the router over a list of events from the initial (empty) state. -/
def run (parse : ParseFn) (events : List Event) : RouterState × List Effect :=
  runFrom parse initRouter events

/-- Number of registry-removal side effects performed for a connection. -/
def removalsFor (id : ConnId) (tr : List Effect) : Nat :=
  tr.countP (fun f => decide (f = Effect.removeEntry id))

/-- Whether an effect is a downstream-pipeline-factory invocation. -/
def isBuild : Effect → Bool
  | Effect.buildDownstream _ _ => true
  | _ => false

/-- Whether an effect is a routing-complete hook invocation. -/
def isComplete : Effect → Bool
  | Effect.hookRoutingComplete _ _ => true
  | _ => false

/-- Whether an effect is a parser-factory invocation. -/
def isFactory : Effect → Bool
  | Effect.invokeParserFactory _ => true
  | _ => false

/-- Number of downstream-pipeline-factory invocations for a connection. -/
def buildsFor (id : ConnId) (tr : List Effect) : Nat :=
  tr.countP (fun f => isBuild f && decide (effectId f = id))

/-- Number of routing-complete hook invocations for a connection. -/
def completesFor (id : ConnId) (tr : List Effect) : Nat :=
  tr.countP (fun f => isComplete f && decide (effectId f = id))

/-- Number of parser-factory invocations for a connection. -/
def factoryCallsFor (id : ConnId) (tr : List Effect) : Nat :=
  tr.countP (fun f => isFactory f && decide (effectId f = id))

/-- The effects of a trace that belong to a connection. -/
def effectsFor (id : ConnId) (tr : List Effect) : List Effect :=
  tr.filter (fun f => decide (effectId f = id))

/-- The sequence of byte payloads delivered as reads into a connection's
downstream chain, in order. -/
def downstreamReadsFor (id : ConnId) (tr : List Effect) : List Bytes :=
  tr.filterMap (fun f =>
    match f with
    | Effect.downstreamRead j bs => if j = id then some bs else none
    | _ => none)

/-- 1 exactly on the terminal phases. -/
def terminalFlag : Phase → Nat
  | Phase.ROUTED => 1
  | Phase.FAILED => 1
  | _ => 0

/-- 1 exactly on `ROUTED`. -/
def routedFlag : Phase → Nat
  | Phase.ROUTED => 1
  | _ => 0

/-- 0 exactly on `INIT`. -/
def activeFlag : Phase → Nat
  | Phase.INIT => 0
  | _ => 1

theorem lookup_updateConn_self (id : ConnId) (cs : ConnState)
    (l : List (ConnId × ConnState)) :
    List.lookup id (updateConn id cs l) = some cs := by
  induction l with
  | nil => simp [updateConn, List.lookup]
  | cons p rest ih =>
      obtain ⟨k, v⟩ := p
      by_cases hk : k = id
      · subst hk
        simp [updateConn, List.lookup]
      · have hk2 : (id == k) = false := by
          simp [Ne.symm hk]
        simp [updateConn, hk, List.lookup, hk2, ih]

theorem lookup_updateConn_other (j id : ConnId) (cs : ConnState)
    (l : List (ConnId × ConnState)) (h : j ≠ id) :
    List.lookup id (updateConn j cs l) = List.lookup id l := by
  have hb : (id == j) = false := by
    cases hbe : id == j with
    | false => rfl
    | true => exact absurd (eq_of_beq hbe) (Ne.symm h)
  induction l with
  | nil => simp [updateConn, List.lookup, hb]
  | cons p rest ih =>
      obtain ⟨k, v⟩ := p
      by_cases hk : k = j
      · subst hk
        simp [updateConn, List.lookup, hb]
      · simp only [updateConn, if_neg hk, List.lookup]
        cases hik : (id == k) <;> simp [hik, ih]

theorem getConn_updateConn_self (s : RouterState) (id : ConnId) (cs : ConnState) :
    getConn (RouterState.mk (updateConn id cs s.conns)) id = cs := by
  simp [getConn, lookup_updateConn_self]

theorem getConn_updateConn_other (s : RouterState) (j id : ConnId)
    (cs : ConnState) (h : j ≠ id) :
    getConn (RouterState.mk (updateConn j cs s.conns)) id = getConn s id := by
  simp [getConn, lookup_updateConn_other j id cs s.conns h]

theorem step_getConn_other (parse : ParseFn) (s : RouterState) (e : Event)
    (id : ConnId) (h : eventId e ≠ id) :
    getConn (step parse s e).1 id = getConn s id := by
  cases e with
  | transportActive j =>
      simp only [eventId] at h
      simp only [step]
      split
      · exact getConn_updateConn_other s j id _ h
      · rfl
  | read j bs =>
      simp only [eventId] at h
      simp only [step]
      split
      · split
        · exact getConn_updateConn_other s j id _ h
        · exact getConn_updateConn_other s j id _ h
      · split
        · rfl
        · rfl
  | readEOF j =>
      simp only [eventId] at h
      simp only [step]
      split
      · exact getConn_updateConn_other s j id _ h
      · split
        · rfl
        · rfl
  | readError j =>
      simp only [eventId] at h
      simp only [step]
      split
      · exact getConn_updateConn_other s j id _ h
      · split
        · rfl
        · rfl
  | routerError j =>
      simp only [eventId] at h
      simp only [step]
      split
      · exact getConn_updateConn_other s j id _ h
      · rfl
  | routingData j r =>
      simp only [eventId] at h
      simp only [step]
      split
      · exact getConn_updateConn_other s j id _ h
      · rfl

theorem handoff_effects_id (id : ConnId) (r : RoutingData) (leftover : Bytes) :
    ∀ f ∈ handoffEffects id r leftover, effectId f = id := by
  intro f hf
  by_cases h : leftover = []
  · simp only [handoffEffects, h, if_pos, List.nil_append, List.mem_cons,
      List.not_mem_nil, or_false] at hf
    rcases hf with rfl | rfl | rfl | rfl <;> rfl
  · simp only [handoffEffects, if_neg h, List.cons_append, List.nil_append,
      List.mem_cons, List.not_mem_nil, or_false] at hf
    rcases hf with rfl | rfl | rfl | rfl | rfl <;> rfl

theorem mem_pair_elim {f a b : Effect} (hf : f ∈ [a, b]) : f = a ∨ f = b := by
  simp only [List.mem_cons, List.not_mem_nil, or_false] at hf
  exact hf

theorem mem_triple_elim {f a b c : Effect} (hf : f ∈ [a, b, c]) :
    f = a ∨ f = b ∨ f = c := by
  simp only [List.mem_cons, List.not_mem_nil, or_false] at hf
  exact hf

theorem step_effects_id (parse : ParseFn) (s : RouterState) (e : Event) :
    ∀ f ∈ (step parse s e).2, effectId f = eventId e := by
  cases e with
  | transportActive j =>
      simp only [step, eventId]
      split
      · intro f hf
        rcases mem_pair_elim hf with rfl | rfl <;> rfl
      · intro f hf
        simp only [List.mem_singleton] at hf
        subst hf
        rfl
  | read j bs =>
      simp only [step, eventId]
      split
      · split
        · intro f hf
          cases hf
        · exact handoff_effects_id j _ _
      · split
        · intro f hf
          simp only [List.mem_singleton] at hf
          subst hf
          rfl
        · intro f hf
          cases hf
  | readEOF j =>
      simp only [step, eventId]
      split
      · intro f hf
        simp only [List.mem_singleton] at hf
        subst hf
        rfl
      · split
        · intro f hf
          simp only [List.mem_singleton] at hf
          subst hf
          rfl
        · intro f hf
          cases hf
  | readError j =>
      simp only [step, eventId]
      split
      · intro f hf
        rcases mem_triple_elim hf with rfl | rfl | rfl <;> rfl
      · split
        · intro f hf
          simp only [List.mem_singleton] at hf
          subst hf
          rfl
        · intro f hf
          cases hf
  | routerError j =>
      simp only [step, eventId]
      split
      · intro f hf
        rcases mem_pair_elim hf with rfl | rfl <;> rfl
      · intro f hf
        cases hf
  | routingData j r =>
      simp only [step, eventId]
      split
      · exact handoff_effects_id j _ _
      · intro f hf
        cases hf

theorem countP_zero_of_other_id (id : ConnId) (tr : List Effect)
    (p : Effect → Bool) (hp : ∀ f, p f = true → effectId f = id)
    (h : ∀ f ∈ tr, effectId f ≠ id) : tr.countP p = 0 := by
  rw [List.countP_eq_zero]
  intro f hf hpf
  exact h f hf (hp f hpf)

theorem removalsFor_pred (id : ConnId) (f : Effect)
    (h : decide (f = Effect.removeEntry id) = true) : effectId f = id := by
  have hf : f = Effect.removeEntry id := of_decide_eq_true h
  subst hf
  rfl

theorem buildsFor_pred (id : ConnId) (f : Effect)
    (h : (isBuild f && decide (effectId f = id)) = true) : effectId f = id :=
  of_decide_eq_true (Bool.and_elim_right h)

theorem completesFor_pred (id : ConnId) (f : Effect)
    (h : (isComplete f && decide (effectId f = id)) = true) : effectId f = id :=
  of_decide_eq_true (Bool.and_elim_right h)

theorem factoryCallsFor_pred (id : ConnId) (f : Effect)
    (h : (isFactory f && decide (effectId f = id)) = true) : effectId f = id :=
  of_decide_eq_true (Bool.and_elim_right h)

theorem counts_handoff (id : ConnId) (r : RoutingData) (leftover : Bytes) :
    removalsFor id (handoffEffects id r leftover) = 1 ∧
    buildsFor id (handoffEffects id r leftover) = 1 ∧
    completesFor id (handoffEffects id r leftover) = 1 ∧
    factoryCallsFor id (handoffEffects id r leftover) = 0 := by
  by_cases h : leftover = [] <;>
    simp [handoffEffects, h, removalsFor, buildsFor, completesFor,
      factoryCallsFor, isBuild, isComplete, isFactory, effectId,
      List.countP_cons, List.countP_nil, List.countP_append]

theorem step_counts (parse : ParseFn) (s : RouterState) (e : Event)
    (id : ConnId) :
    removalsFor id (step parse s e).2 + terminalFlag (getConn s id).phase
        = terminalFlag (getConn (step parse s e).1 id).phase
    ∧ buildsFor id (step parse s e).2 + routedFlag (getConn s id).phase
        = routedFlag (getConn (step parse s e).1 id).phase
    ∧ completesFor id (step parse s e).2 + routedFlag (getConn s id).phase
        = routedFlag (getConn (step parse s e).1 id).phase
    ∧ factoryCallsFor id (step parse s e).2 + activeFlag (getConn s id).phase
        = activeFlag (getConn (step parse s e).1 id).phase := by
  by_cases heq : eventId e = id
  case neg =>
    have hconn := step_getConn_other parse s e id heq
    have heff : ∀ f ∈ (step parse s e).2, effectId f ≠ id := by
      intro f hf
      rw [step_effects_id parse s e f hf]
      exact heq
    have hr : removalsFor id (step parse s e).2 = 0 :=
      countP_zero_of_other_id id _ _ (removalsFor_pred id) heff
    have hb : buildsFor id (step parse s e).2 = 0 :=
      countP_zero_of_other_id id _ _ (buildsFor_pred id) heff
    have hc : completesFor id (step parse s e).2 = 0 :=
      countP_zero_of_other_id id _ _ (completesFor_pred id) heff
    have hfc : factoryCallsFor id (step parse s e).2 = 0 :=
      countP_zero_of_other_id id _ _ (factoryCallsFor_pred id) heff
    rw [hconn]
    exact ⟨by rw [hr]; omega, by rw [hb]; omega, by rw [hc]; omega,
      by rw [hfc]; omega⟩
  case pos =>
    cases e with
    | transportActive j =>
        simp only [eventId] at heq
        subst heq
        cases hph : (getConn s j).phase <;>
          simp [step, hph, getConn_updateConn_self, removalsFor, buildsFor,
            completesFor, factoryCallsFor, isBuild, isComplete, isFactory,
            effectId, terminalFlag, routedFlag, activeFlag, List.countP_cons]
    | read j bs =>
        simp only [eventId] at heq
        subst heq
        cases hph : (getConn s j).phase
        case ROUTING =>
          cases hpr : parse ((getConn s j).buffer ++ bs) with
          | needMoreData =>
              simp [step, hph, hpr, getConn_updateConn_self, removalsFor,
                buildsFor, completesFor, factoryCallsFor, terminalFlag,
                routedFlag, activeFlag]
          | classified r leftover =>
              obtain ⟨c1, c2, c3, c4⟩ := counts_handoff j r leftover
              simp [step, hph, hpr, getConn_updateConn_self, c1, c2, c3, c4,
                terminalFlag, routedFlag, activeFlag]
        all_goals
          simp [step, hph, removalsFor, buildsFor, completesFor,
            factoryCallsFor, isBuild, isComplete, isFactory, effectId,
            terminalFlag, routedFlag, activeFlag, List.countP_cons]
    | readEOF j =>
        simp only [eventId] at heq
        subst heq
        cases hph : (getConn s j).phase <;>
          simp [step, hph, getConn_updateConn_self, removalsFor, buildsFor,
            completesFor, factoryCallsFor, isBuild, isComplete, isFactory,
            effectId, terminalFlag, routedFlag, activeFlag, List.countP_cons]
    | readError j =>
        simp only [eventId] at heq
        subst heq
        cases hph : (getConn s j).phase <;>
          simp [step, hph, getConn_updateConn_self, removalsFor, buildsFor,
            completesFor, factoryCallsFor, isBuild, isComplete, isFactory,
            effectId, terminalFlag, routedFlag, activeFlag, List.countP_cons]
    | routerError j =>
        simp only [eventId] at heq
        subst heq
        cases hph : (getConn s j).phase <;>
          simp [step, hph, getConn_updateConn_self, removalsFor, buildsFor,
            completesFor, factoryCallsFor, isBuild, isComplete, isFactory,
            effectId, terminalFlag, routedFlag, activeFlag, List.countP_cons]
    | routingData j r =>
        simp only [eventId] at heq
        subst heq
        cases hph : (getConn s j).phase
        case ROUTING =>
          obtain ⟨c1, c2, c3, c4⟩ := counts_handoff j r (getConn s j).buffer
          simp [step, hph, getConn_updateConn_self, c1, c2, c3, c4,
            terminalFlag, routedFlag, activeFlag]
        all_goals
          simp [step, hph, removalsFor, buildsFor, completesFor,
            factoryCallsFor, terminalFlag, routedFlag, activeFlag]

theorem runFrom_counts (parse : ParseFn) (id : ConnId) :
    ∀ (events : List Event) (s : RouterState),
    removalsFor id (runFrom parse s events).2 + terminalFlag (getConn s id).phase
        = terminalFlag (getConn (runFrom parse s events).1 id).phase
    ∧ buildsFor id (runFrom parse s events).2 + routedFlag (getConn s id).phase
        = routedFlag (getConn (runFrom parse s events).1 id).phase
    ∧ completesFor id (runFrom parse s events).2 + routedFlag (getConn s id).phase
        = routedFlag (getConn (runFrom parse s events).1 id).phase
    ∧ factoryCallsFor id (runFrom parse s events).2
          + activeFlag (getConn s id).phase
        = activeFlag (getConn (runFrom parse s events).1 id).phase := by
  intro events
  induction events with
  | nil =>
      intro s
      simp [runFrom, removalsFor, buildsFor, completesFor, factoryCallsFor]
  | cons e es ih =>
      intro s
      obtain ⟨h1, h2, h3, h4⟩ := step_counts parse s e id
      obtain ⟨g1, g2, g3, g4⟩ := ih (step parse s e).1
      simp only [runFrom, removalsFor, buildsFor, completesFor,
        factoryCallsFor, List.countP_append] at *
      exact ⟨by omega, by omega, by omega, by omega⟩

theorem terminalFlag_le_one (ph : Phase) : terminalFlag ph ≤ 1 := by
  cases ph <;> simp [terminalFlag]

theorem routedFlag_le_one (ph : Phase) : routedFlag ph ≤ 1 := by
  cases ph <;> simp [routedFlag]

/-- C1: for every connection, the registry removal side effect (and the
teardown it triggers) executes at most once over any sequence of delivered
events — however many of the terminal transitions (successful classification,
read-error, end-of-stream, duplicate close / late error) fire for that
connection, any removal attempt after the first is a no-op. -/
theorem claim_C1_erase_once (parse : ParseFn) (events : List Event)
    (id : ConnId) :
    removalsFor id (run parse events).2 ≤ 1 := by
  have h := (runFrom_counts parse id events initRouter).1
  have h0 : terminalFlag (getConn initRouter id).phase = 0 := rfl
  rw [h0] at h
  have hle := terminalFlag_le_one
    (getConn (runFrom parse initRouter events).1 id).phase
  rw [run]
  omega

/-- C2: for every connection, the Downstream Pipeline Factory is invoked
exactly as many times as classification succeeded for that connection
(signalled by the once-per-terminal-transition `onRoutingComplete` hook) and
never more than once; in particular a connection for which classification
never succeeds — e.g. a read-error or parse failure arrives first — sees
zero factory invocations. -/
theorem claim_C2_no_premature_downstream (parse : ParseFn)
    (events : List Event) (id : ConnId) :
    buildsFor id (run parse events).2 = completesFor id (run parse events).2
    ∧ buildsFor id (run parse events).2 ≤ 1 := by
  obtain ⟨_, h2, h3, _⟩ := runFrom_counts parse id events initRouter
  have h0 : routedFlag (getConn initRouter id).phase = 0 := rfl
  rw [h0] at h2 h3
  have hle := routedFlag_le_one
    (getConn (runFrom parse initRouter events).1 id).phase
  rw [run]
  omega

/-- A concrete test parser for witnesses: waits for at least two buffered
bytes, then classifies with the first byte as the routing result and the
remaining bytes as the leftover. -/
def testParse : ParseFn := fun buf =>
  if 2 ≤ buf.length then ParseResult.classified buf.headI (buf.drop 1)
  else ParseResult.needMoreData

/-- A concrete test parser for witnesses: classifies immediately with result
65, consuming the whole buffer (empty leftover). -/
def eagerParse : ParseFn := fun buf =>
  if 1 ≤ buf.length then ParseResult.classified 65 []
  else ParseResult.needMoreData

/-- C4: when a read in state `ROUTING` makes the parser return
`Classified(result, leftover)`, the router — synchronously, within the single
`step` that processes that read, so no other event for the connection can
interleave — performs exactly, in order: downstream chain construction from
the classification result, an activation event into the new chain, a single
read event carrying `leftover` when it is non-empty, then the removal of the
RoutingEntry (followed by the completion hook), and the connection's state
becomes `ROUTED`; the removal is the only one in that step. -/
theorem claim_C4_synchronous_handoff (parse : ParseFn) (s : RouterState)
    (id : ConnId) (bs : Bytes) (r : RoutingData) (leftover : Bytes)
    (hph : (getConn s id).phase = Phase.ROUTING)
    (hparse : parse ((getConn s id).buffer ++ bs)
        = ParseResult.classified r leftover) :
    (step parse s (Event.read id bs)).2
        = Effect.buildDownstream id r :: Effect.activateDownstream id ::
            ((if leftover = [] then []
              else [Effect.downstreamRead id leftover]) ++
              [Effect.removeEntry id, Effect.hookRoutingComplete id r])
    ∧ (getConn (step parse s (Event.read id bs)).1 id).phase = Phase.ROUTED
    ∧ removalsFor id (step parse s (Event.read id bs)).2 = 1 := by
  have hstep : (step parse s (Event.read id bs)).2
      = handoffEffects id r leftover := by
    simp [step, hph, hparse]
  refine ⟨?_, ?_, ?_⟩
  · rw [hstep]
    rfl
  · simp [step, hph, hparse, getConn_updateConn_self]
  · rw [hstep]
    exact (counts_handoff id r leftover).1

/-- Witness for C4: a connection activated and classified on the read of
bytes `[97, 98]` by a parser that keeps `[98]` as leftover. -/
theorem claim_C4_synchronous_handoff_witness :
    (getConn (run testParse [Event.transportActive 0]).1 0).phase
        = Phase.ROUTING
    ∧ testParse
          ((getConn (run testParse [Event.transportActive 0]).1 0).buffer
            ++ [97, 98])
        = ParseResult.classified 97 [98]
    ∧ ((step testParse (run testParse [Event.transportActive 0]).1
          (Event.read 0 [97, 98])).2
        = Effect.buildDownstream 0 97 :: Effect.activateDownstream 0 ::
            ((if ([98] : Bytes) = [] then []
              else [Effect.downstreamRead 0 [98]]) ++
              [Effect.removeEntry 0, Effect.hookRoutingComplete 0 97])
    ∧ (getConn (step testParse (run testParse [Event.transportActive 0]).1
          (Event.read 0 [97, 98])).1 0).phase = Phase.ROUTED
    ∧ removalsFor 0 (step testParse (run testParse [Event.transportActive 0]).1
          (Event.read 0 [97, 98])).2 = 1) :=
  ⟨by decide, by decide,
    claim_C4_synchronous_handoff testParse _ 0 [97, 98] 97 [98]
      (by decide) (by decide)⟩

/-- C5: a read-error arriving while the connection is in state `ROUTING` is
first forwarded to the parser's `onReadError`, then the router's error
handler removes the RoutingEntry; no downstream chain is constructed, and
the connection's state becomes `FAILED`. -/
theorem claim_C5_read_error_while_routing (parse : ParseFn) (s : RouterState)
    (id : ConnId) (hph : (getConn s id).phase = Phase.ROUTING) :
    (step parse s (Event.readError id)).2
        = [Effect.parserOnReadError id, Effect.removeEntry id,
            Effect.hookRoutingError id]
    ∧ (getConn (step parse s (Event.readError id)).1 id).phase = Phase.FAILED
    ∧ buildsFor id (step parse s (Event.readError id)).2 = 0 := by
  simp [step, hph, getConn_updateConn_self, buildsFor, isBuild,
    List.countP_cons]

/-- Witness for C5: an activated connection receives a read-error before any
classification. -/
theorem claim_C5_read_error_while_routing_witness :
    (getConn (run testParse [Event.transportActive 0]).1 0).phase
        = Phase.ROUTING
    ∧ ((step testParse (run testParse [Event.transportActive 0]).1
          (Event.readError 0)).2
        = [Effect.parserOnReadError 0, Effect.removeEntry 0,
            Effect.hookRoutingError 0]
    ∧ (getConn (step testParse (run testParse [Event.transportActive 0]).1
          (Event.readError 0)).1 0).phase = Phase.FAILED
    ∧ buildsFor 0 (step testParse (run testParse [Event.transportActive 0]).1
          (Event.readError 0)).2 = 0) :=
  ⟨by decide,
    claim_C5_read_error_while_routing testParse _ 0 (by decide)⟩

/-- C7: invoking the router's error handler for a connection id with no
registry entry (whatever the reason the entry is absent) is a total, safe
no-op: the router state — registry included — is unchanged and no effect
(no hook, no removal, no teardown) is performed. -/
theorem claim_C7_error_handler_no_entry (parse : ParseFn) (s : RouterState)
    (id : ConnId) (hph : (getConn s id).phase ≠ Phase.ROUTING) :
    step parse s (Event.routerError id) = (s, []) := by
  simp [step, hph]

/-- Witness for C7: the error handler invoked on the empty registry. -/
theorem claim_C7_error_handler_no_entry_witness :
    (getConn initRouter 0).phase ≠ Phase.ROUTING
    ∧ step testParse initRouter (Event.routerError 0) = (initRouter, []) :=
  ⟨by decide, claim_C7_error_handler_no_entry testParse initRouter 0
    (by decide)⟩

/-- C8: tie-break — when a read's classification completes first within its
own synchronous processing, the connection is handed off (state `ROUTED`),
and an error arriving strictly afterwards is delivered to the downstream
chain only: it produces exactly one downstream-error event, touches no
routing-path effect and leaves the registry (which no longer holds the
entry) unchanged. -/
theorem claim_C8_tie_break (parse : ParseFn) (s : RouterState) (id : ConnId)
    (bs : Bytes) (r : RoutingData) (leftover : Bytes)
    (hph : (getConn s id).phase = Phase.ROUTING)
    (hparse : parse ((getConn s id).buffer ++ bs)
        = ParseResult.classified r leftover) :
    (getConn (step parse s (Event.read id bs)).1 id).phase = Phase.ROUTED
    ∧ step parse (step parse s (Event.read id bs)).1 (Event.readError id)
        = ((step parse s (Event.read id bs)).1,
            [Effect.downstreamError id]) := by
  have h1 : (getConn (step parse s (Event.read id bs)).1 id).phase
      = Phase.ROUTED := by
    simp [step, hph, hparse, getConn_updateConn_self]
  refine ⟨h1, ?_⟩
  generalize hs1 : (step parse s (Event.read id bs)).1 = s1 at h1 ⊢
  simp [step, h1]

/-- Witness for C8: classification on `[97, 98]` followed by a late error. -/
theorem claim_C8_tie_break_witness :
    (getConn (run testParse [Event.transportActive 0]).1 0).phase
        = Phase.ROUTING
    ∧ testParse
          ((getConn (run testParse [Event.transportActive 0]).1 0).buffer
            ++ [97, 98])
        = ParseResult.classified 97 [98]
    ∧ ((getConn (step testParse (run testParse [Event.transportActive 0]).1
          (Event.read 0 [97, 98])).1 0).phase = Phase.ROUTED
    ∧ step testParse
          (step testParse (run testParse [Event.transportActive 0]).1
            (Event.read 0 [97, 98])).1 (Event.readError 0)
        = ((step testParse (run testParse [Event.transportActive 0]).1
            (Event.read 0 [97, 98])).1, [Effect.downstreamError 0])) :=
  ⟨by decide, by decide,
    claim_C8_tie_break testParse _ 0 [97, 98] 97 [98] (by decide)
      (by decide)⟩

/-- C9: `routingEntryCount` counts exactly the connections currently in
state `ROUTING`, so once every accepted connection has reached a terminal
transition (`ROUTED`, `FAILED`, or closed before activation) no routing
entry outlives it and the count is zero. -/
theorem claim_C9_count_reaches_zero (s : RouterState)
    (h : ∀ p ∈ s.conns, p.2.phase ≠ Phase.ROUTING) :
    routingEntryCount s = 0 := by
  simp only [routingEntryCount, List.length_eq_zero, List.filter_eq_nil_iff]
  intro p hp
  simpa using h p hp

/-- Witness for C9: the registry after a full end-to-end run — activation,
classifying read, EOF delivered downstream — holds no mid-routing entry. -/
theorem claim_C9_count_reaches_zero_witness :
    (∀ p ∈ (run eagerParse [Event.transportActive 0, Event.read 0 [97],
        Event.readEOF 0]).1.conns, p.2.phase ≠ Phase.ROUTING)
    ∧ routingEntryCount (run eagerParse [Event.transportActive 0,
        Event.read 0 [97], Event.readEOF 0]).1 = 0 :=
  ⟨by decide, claim_C9_count_reaches_zero _ (by decide)⟩

theorem step_lookup_other (parse : ParseFn) (s : RouterState) (e : Event)
    (id : ConnId) (h : eventId e ≠ id) :
    List.lookup id (step parse s e).1.conns = List.lookup id s.conns := by
  cases e with
  | transportActive j =>
      simp only [eventId] at h
      simp only [step]
      split
      · exact lookup_updateConn_other j id _ s.conns h
      · rfl
  | read j bs =>
      simp only [eventId] at h
      simp only [step]
      split
      · split
        · exact lookup_updateConn_other j id _ s.conns h
        · exact lookup_updateConn_other j id _ s.conns h
      · split
        · rfl
        · rfl
  | readEOF j =>
      simp only [eventId] at h
      simp only [step]
      split
      · exact lookup_updateConn_other j id _ s.conns h
      · split
        · rfl
        · rfl
  | readError j =>
      simp only [eventId] at h
      simp only [step]
      split
      · exact lookup_updateConn_other j id _ s.conns h
      · split
        · rfl
        · rfl
  | routerError j =>
      simp only [eventId] at h
      simp only [step]
      split
      · exact lookup_updateConn_other j id _ s.conns h
      · rfl
  | routingData j r =>
      simp only [eventId] at h
      simp only [step]
      split
      · exact lookup_updateConn_other j id _ s.conns h
      · rfl

theorem step_preserves_absent (parse : ParseFn) (s : RouterState) (e : Event)
    (id : ConnId) (hlk : List.lookup id s.conns = none)
    (hne : e ≠ Event.transportActive id) :
    List.lookup id (step parse s e).1.conns = none
    ∧ effectsFor id (step parse s e).2 = [] := by
  by_cases heq : eventId e = id
  case pos =>
    have hconn : getConn s id = initConn := by
      simp [getConn, hlk]
    cases e with
    | transportActive j =>
        simp only [eventId] at heq
        subst heq
        exact absurd rfl hne
    | read j bs =>
        simp only [eventId] at heq
        subst heq
        have hst : step parse s (Event.read j bs) = (s, []) := by
          simp [step, hconn, initConn]
        rw [hst]
        exact ⟨hlk, rfl⟩
    | readEOF j =>
        simp only [eventId] at heq
        subst heq
        have hst : step parse s (Event.readEOF j) = (s, []) := by
          simp [step, hconn, initConn]
        rw [hst]
        exact ⟨hlk, rfl⟩
    | readError j =>
        simp only [eventId] at heq
        subst heq
        have hst : step parse s (Event.readError j) = (s, []) := by
          simp [step, hconn, initConn]
        rw [hst]
        exact ⟨hlk, rfl⟩
    | routerError j =>
        simp only [eventId] at heq
        subst heq
        have hst : step parse s (Event.routerError j) = (s, []) := by
          simp [step, hconn, initConn]
        rw [hst]
        exact ⟨hlk, rfl⟩
    | routingData j r =>
        simp only [eventId] at heq
        subst heq
        have hst : step parse s (Event.routingData j r) = (s, []) := by
          simp [step, hconn, initConn]
        rw [hst]
        exact ⟨hlk, rfl⟩
  case neg =>
    refine ⟨by rw [step_lookup_other parse s e id heq]; exact hlk, ?_⟩
    rw [effectsFor, List.filter_eq_nil_iff]
    intro f hf
    simp only [decide_eq_true_eq]
    rw [step_effects_id parse s e f hf]
    exact heq

theorem runFrom_preserves_absent (parse : ParseFn) (id : ConnId) :
    ∀ (events : List Event) (s : RouterState),
    List.lookup id s.conns = none →
    Event.transportActive id ∉ events →
    List.lookup id (runFrom parse s events).1.conns = none
    ∧ effectsFor id (runFrom parse s events).2 = [] := by
  intro events
  induction events with
  | nil =>
      intro s hlk _
      exact ⟨hlk, rfl⟩
  | cons e es ih =>
      intro s hlk hmem
      have hne : e ≠ Event.transportActive id := by
        intro hc
        exact hmem (hc ▸ List.mem_cons_self e es)
      have hmem2 : Event.transportActive id ∉ es := by
        intro hc
        exact hmem (List.mem_cons_of_mem e hc)
      obtain ⟨h1, h2⟩ := step_preserves_absent parse s e id hlk hne
      obtain ⟨g1, g2⟩ := ih (step parse s e).1 h1 hmem2
      refine ⟨g1, ?_⟩
      simp only [runFrom, effectsFor, List.filter_append]
      rw [effectsFor] at h2 g2
      rw [h2, g2]
      rfl

/-- C6: a connection whose transport fails or closes before transport-active
is ever delivered — i.e. over any event sequence containing no
transport-active for its id — never obtains a registry entry, never causes a
parser-factory invocation, and is a complete no-op: no effect whatsoever is
performed for that connection. -/
theorem claim_C6_pre_activation_noop (parse : ParseFn) (events : List Event)
    (id : ConnId) (h : Event.transportActive id ∉ events) :
    List.lookup id (run parse events).1.conns = none
    ∧ effectsFor id (run parse events).2 = []
    ∧ factoryCallsFor id (run parse events).2 = 0 := by
  obtain ⟨h1, h2⟩ := runFrom_preserves_absent parse id events initRouter rfl h
  refine ⟨h1, h2, ?_⟩
  have hall : ∀ f ∈ (runFrom parse initRouter events).2, effectId f ≠ id := by
    rw [effectsFor, List.filter_eq_nil_iff] at h2
    intro f hf
    have := h2 f hf
    simpa using this
  exact countP_zero_of_other_id id _ _ (factoryCallsFor_pred id) hall

/-- Witness for C6: connection 0 receives a read-error, an EOF and a stray
read without ever having been activated, while another connection routes
normally. -/
theorem claim_C6_pre_activation_noop_witness :
    Event.transportActive 0 ∉ [Event.transportActive 1, Event.readError 0,
        Event.readEOF 0, Event.read 0 [97], Event.routerError 0]
    ∧ (List.lookup 0 (run testParse [Event.transportActive 1,
          Event.readError 0, Event.readEOF 0, Event.read 0 [97],
          Event.routerError 0]).1.conns = none
    ∧ effectsFor 0 (run testParse [Event.transportActive 1,
          Event.readError 0, Event.readEOF 0, Event.read 0 [97],
          Event.routerError 0]).2 = []
    ∧ factoryCallsFor 0 (run testParse [Event.transportActive 1,
          Event.readError 0, Event.readEOF 0, Event.read 0 [97],
          Event.routerError 0]).2 = 0) :=
  ⟨by decide, claim_C6_pre_activation_noop testParse _ 0 (by decide)⟩

theorem runFrom_append (parse : ParseFn) (xs ys : List Event) :
    ∀ s : RouterState,
    runFrom parse s (xs ++ ys)
      = ((runFrom parse (runFrom parse s xs).1 ys).1,
          (runFrom parse s xs).2 ++ (runFrom parse (runFrom parse s xs).1 ys).2) := by
  induction xs with
  | nil =>
      intro s
      simp [runFrom]
  | cons e es ih =>
      intro s
      simp [runFrom, ih, List.append_assoc]

theorem runFrom_reads_needMore (parse : ParseFn) (id : ConnId) :
    ∀ (rs : List Bytes) (s : RouterState) (B : Bytes),
    getConn s id = ConnState.mk Phase.ROUTING B →
    (∀ k, k < rs.length →
        parse (B ++ (rs.take (k+1)).flatten) = ParseResult.needMoreData) →
    getConn (runFrom parse s (rs.map (Event.read id))).1 id
        = ConnState.mk Phase.ROUTING (B ++ rs.flatten)
    ∧ (runFrom parse s (rs.map (Event.read id))).2 = [] := by
  intro rs
  induction rs with
  | nil =>
      intro s B hc _
      constructor
      · simpa [runFrom] using hc
      · rfl
  | cons b rest ih =>
      intro s B hc hk
      have h0 : parse (B ++ b) = ParseResult.needMoreData := by
        have := hk 0 (by simp)
        simpa using this
      have hst : step parse s (Event.read id b)
          = (RouterState.mk
              (updateConn id (ConnState.mk Phase.ROUTING (B ++ b)) s.conns),
              []) := by
        simp [step, hc, h0]
      have hg : getConn (RouterState.mk
          (updateConn id (ConnState.mk Phase.ROUTING (B ++ b)) s.conns)) id
          = ConnState.mk Phase.ROUTING (B ++ b) :=
        getConn_updateConn_self s id _
      have hk2 : ∀ k, k < rest.length →
          parse ((B ++ b) ++ (rest.take (k+1)).flatten)
            = ParseResult.needMoreData := by
        intro k hkk
        have := hk (k+1) (by simpa using Nat.succ_lt_succ hkk)
        simpa [List.append_assoc] using this
      obtain ⟨ih1, ih2⟩ := ih _ (B ++ b) hg hk2
      constructor
      · simp only [List.map_cons, runFrom, hst]
        simpa [List.append_assoc] using ih1
      · simp only [List.map_cons, runFrom, hst]
        simpa using ih2

theorem runFrom_reads_routed (parse : ParseFn) (id : ConnId) :
    ∀ (rs : List Bytes) (s : RouterState),
    (getConn s id).phase = Phase.ROUTED →
    runFrom parse s (rs.map (Event.read id))
      = (s, rs.map (Effect.downstreamRead id)) := by
  intro rs
  induction rs with
  | nil =>
      intro s _
      rfl
  | cons b rest ih =>
      intro s h
      have hst : step parse s (Event.read id b)
          = (s, [Effect.downstreamRead id b]) := by
        simp [step, h]
      simp [runFrom, hst, ih s h]

theorem downstreamReadsFor_append (id : ConnId) (t1 t2 : List Effect) :
    downstreamReadsFor id (t1 ++ t2)
      = downstreamReadsFor id t1 ++ downstreamReadsFor id t2 := by
  simp [downstreamReadsFor, List.filterMap_append]

theorem downstreamReadsFor_map_reads (id : ConnId) (rs : List Bytes) :
    downstreamReadsFor id (rs.map (Effect.downstreamRead id)) = rs := by
  induction rs with
  | nil => rfl
  | cons b rest ih =>
      simp only [List.map_cons, downstreamReadsFor,
        List.filterMap_cons] at ih ⊢
      simp [ih]

theorem downstreamReadsFor_handoff (id : ConnId) (r : RoutingData)
    (leftover : Bytes) (h : leftover ≠ []) :
    downstreamReadsFor id (handoffEffects id r leftover) = [leftover] := by
  simp [handoffEffects, h, downstreamReadsFor, List.filterMap_cons,
    List.filterMap_append]

theorem downstreamReadsFor_nil (id : ConnId) :
    downstreamReadsFor id [] = [] := rfl

theorem downstreamReadsFor_activation (id : ConnId) :
    downstreamReadsFor id
      [Effect.invokeParserFactory id, Effect.parserActivated id] = [] := rfl

/-- C3: for a connection whose parser classifies only once the reads
`pre ++ [b]` have been buffered (returning `NeedMoreData` on every proper
prefix) and reports leftover bytes `leftover`, the downstream chain's first
delivered read is exactly `leftover` and every subsequently arriving read
follows unchanged in arrival order; given the parser contract that
`leftover` is a suffix of the classified buffer, the full byte stream
delivered downstream is the arrived stream minus only the
classification-consumed prefix — nothing is dropped or reordered across the
routing-to-downstream boundary. -/
theorem claim_C3_byte_order_preserved (parse : ParseFn) (id : ConnId)
    (pre post : List Bytes) (b : Bytes) (r : RoutingData) (leftover : Bytes)
    (hneed : ∀ k, k < pre.length →
        parse ((pre.take (k+1)).flatten) = ParseResult.needMoreData)
    (hcl : parse (pre.flatten ++ b) = ParseResult.classified r leftover)
    (hlo : leftover ≠ [])
    (hsuf : leftover <:+ pre.flatten ++ b) :
    downstreamReadsFor id
        (run parse (Event.transportActive id ::
          (pre.map (Event.read id) ++ Event.read id b ::
            post.map (Event.read id)))).2
      = leftover :: post
    ∧ ∃ consumed, consumed ++ (leftover :: post).flatten
        = (pre.flatten ++ b) ++ post.flatten := by
  have hneed2 : ∀ k, k < pre.length →
      parse ([] ++ (pre.take (k+1)).flatten) = ParseResult.needMoreData := by
    intro k hk
    simpa using hneed k hk
  have hst1a : (step parse initRouter (Event.transportActive id)).1
      = RouterState.mk (updateConn id (ConnState.mk Phase.ROUTING []) []) := rfl
  have hst1b : (step parse initRouter (Event.transportActive id)).2
      = [Effect.invokeParserFactory id, Effect.parserActivated id] := rfl
  have hg1 : getConn
      (RouterState.mk (updateConn id (ConnState.mk Phase.ROUTING []) [])) id
      = ConnState.mk Phase.ROUTING [] :=
    getConn_updateConn_self initRouter id _
  obtain ⟨hg2, ht2⟩ := runFrom_reads_needMore parse id pre
    (RouterState.mk (updateConn id (ConnState.mk Phase.ROUTING []) []))
    [] hg1 hneed2
  have hg2' : getConn (runFrom parse
      (RouterState.mk (updateConn id (ConnState.mk Phase.ROUTING []) []))
      (pre.map (Event.read id))).1 id
      = ConnState.mk Phase.ROUTING pre.flatten := by
    simpa using hg2
  have hst3a : (step parse (runFrom parse
      (RouterState.mk (updateConn id (ConnState.mk Phase.ROUTING []) []))
      (pre.map (Event.read id))).1 (Event.read id b)).1
      = RouterState.mk (updateConn id (ConnState.mk Phase.ROUTED [])
          (runFrom parse
            (RouterState.mk (updateConn id (ConnState.mk Phase.ROUTING []) []))
            (pre.map (Event.read id))).1.conns) := by
    simp [step, hg2', hcl]
  have hst3b : (step parse (runFrom parse
      (RouterState.mk (updateConn id (ConnState.mk Phase.ROUTING []) []))
      (pre.map (Event.read id))).1 (Event.read id b)).2
      = handoffEffects id r leftover := by
    simp [step, hg2', hcl]
  have hg3 : (getConn (RouterState.mk (updateConn id
      (ConnState.mk Phase.ROUTED [])
      (runFrom parse
        (RouterState.mk (updateConn id (ConnState.mk Phase.ROUTING []) []))
        (pre.map (Event.read id))).1.conns)) id).phase = Phase.ROUTED := by
    rw [getConn_updateConn_self]
  have hpost := runFrom_reads_routed parse id post _ hg3
  constructor
  · simp only [run, runFrom, runFrom_append]
    rw [hst1a, hst1b, ht2, hst3a, hst3b, hpost]
    simp only [downstreamReadsFor_append, downstreamReadsFor_activation,
      downstreamReadsFor_nil, downstreamReadsFor_handoff id r leftover hlo,
      downstreamReadsFor_map_reads, List.nil_append, List.append_nil,
      List.singleton_append]
  · obtain ⟨consumed, hcons⟩ := hsuf
    refine ⟨consumed, ?_⟩
    simp only [List.flatten_cons]
    rw [← List.append_assoc, hcons]

/-- Witness for C3: one buffered single-byte read, classification on the
second read with leftover `[98]`, one subsequent read `[99]`. -/
theorem claim_C3_byte_order_preserved_witness :
    (∀ k, k < [[97]].length →
        testParse (([[97]].take (k+1)).flatten) = ParseResult.needMoreData)
    ∧ testParse ([[97]].flatten ++ [98]) = ParseResult.classified 97 [98]
    ∧ ([98] : Bytes) ≠ []
    ∧ ([98] : Bytes) <:+ [[97]].flatten ++ [98]
    ∧ (downstreamReadsFor 0
        (run testParse (Event.transportActive 0 ::
          ([[97]].map (Event.read 0) ++ Event.read 0 [98] ::
            [[99]].map (Event.read 0)))).2
      = [98] :: [[99]]
    ∧ ∃ consumed, consumed ++ (([98] : Bytes) :: [[99]]).flatten
        = ([[97]].flatten ++ [98]) ++ [[99]].flatten) :=
  ⟨by intro k hk
      have hz : k = 0 := by
        simpa using hk
      subst hz
      decide,
    by decide, by decide, ⟨[97], by decide⟩,
    claim_C3_byte_order_preserved testParse 0 [[97]] [[99]] [98] 97 [98]
      (by intro k hk
          have hz : k = 0 := by
            simpa using hk
          subst hz
          decide)
      (by decide) (by decide) ⟨[97], by decide⟩⟩

/-- C10: invoking the classification-success callback (`onRoutingData`) for
a connection id whose routing entry has already been removed — e.g. by a
prior exception — is a total, safe no-op: no downstream pipeline is
constructed, no removal is performed, and the router state is unchanged. -/
theorem claim_C10_routing_data_no_entry (parse : ParseFn) (s : RouterState)
    (id : ConnId) (r : RoutingData)
    (hph : (getConn s id).phase ≠ Phase.ROUTING) :
    step parse s (Event.routingData id r) = (s, []) := by
  simp [step, hph]

/-- Witness for C10: `onRoutingData` delivered after the entry was removed
by a routing-time read-error, mirroring the `RoutingPipelineErasedOnlyOnce`
test. -/
theorem claim_C10_routing_data_no_entry_witness :
    (getConn (run testParse [Event.transportActive 0,
        Event.readError 0]).1 0).phase ≠ Phase.ROUTING
    ∧ step testParse
          (run testParse [Event.transportActive 0, Event.readError 0]).1
          (Event.routingData 0 65)
        = ((run testParse [Event.transportActive 0, Event.readError 0]).1,
            []) :=
  ⟨by decide, claim_C10_routing_data_no_entry testParse _ 0 65 (by decide)⟩

end Wangle
